import Mathlib

/-!
Verification development for the aiflow workflow orchestration engine
(step executor with retry/backoff and error classification, template
engine, expression evaluator, and state manager).

The definitions below are a shallow embedding of the TypeScript sources:
JavaScript runtime values are modelled by the inductive type JSValue
(numbers as rationals; NaN and reference identity of objects are outside
the model and noted where relevant), strings are processed as lists of
characters, fallible code returns Except, and the filesystem used by the
state manager is modelled as a map from status partitions to directory
contents.
-/

namespace Aiflow

/-- Left brace character, written by code point. -/
def lbrace : Char := Char.ofNat 123
/-- Right brace character, written by code point. -/
def rbrace : Char := Char.ofNat 125
/-- Single quote character, written by code point. -/
def squote : Char := Char.ofNat 39
/-- Double quote character, written by code point. -/
def dquote : Char := Char.ofNat 34

/-- JavaScript whitespace (the regexp class backslash-s restricted to the
ASCII characters that occur in this code base): space, tab, line feed,
carriage return, vertical tab, form feed. -/
def jsWhite (c : Char) : Bool :=
  c = ' ' || c = '\t' || c = '\n' || c = '\r' || c = Char.ofNat 11 || c = Char.ofNat 12

/-- Drop leading JavaScript whitespace. -/
def dropWhiteL : List Char → List Char
  | [] => []
  | c :: cs => if jsWhite c then dropWhiteL cs else c :: cs

/-- JavaScript String.prototype.trim on a character list. -/
def jsTrim (l : List Char) : List Char :=
  (dropWhiteL (dropWhiteL l.reverse).reverse)

/-- Does the pattern occur as an initial segment of the list? -/
def leadMatch : List Char → List Char → Bool
  | [], _ => true
  | _ :: _, [] => false
  | p :: ps, c :: cs => p = c && leadMatch ps cs

/-- JavaScript String.prototype.includes: does the pattern occur as a
contiguous subsequence? -/
def containsSeq (pat : List Char) : List Char → Bool
  | [] => leadMatch pat []
  | c :: cs => leadMatch pat (c :: cs) || containsSeq pat cs

/-- JavaScript String.prototype.split with a non-empty string separator:
split at each leftmost non-overlapping occurrence of the separator. -/
def splitOnSeqGo (fuel : Nat) (sep : List Char) (l : List Char) (cur : List Char)
    (acc : List (List Char)) : List (List Char) :=
  match fuel with
  | 0 => acc ++ [cur]
  | fuel + 1 =>
    match l with
    | [] => acc ++ [cur]
    | c :: cs =>
      if leadMatch sep l then
        splitOnSeqGo fuel sep (l.drop sep.length) [] (acc ++ [cur])
      else
        splitOnSeqGo fuel sep cs (cur ++ [c]) acc

/-- Split a character list on a separator sequence (JavaScript split). -/
def splitOnSeq (sep l : List Char) : List (List Char) :=
  splitOnSeqGo (l.length + 1) sep l [] []

/-- Split on a single character (JavaScript split with a one-char separator). -/
def splitOnChar (sep : Char) (l : List Char) : List (List Char) :=
  splitOnSeq [sep] l

/-- Break a list at the first occurrence of a character: returns the part
before it and the part after it (the character removed), or none. -/
def breakAtChar (ch : Char) : List Char → Option (List Char × List Char)
  | [] => none
  | c :: cs =>
    if c = ch then some ([], cs)
    else match breakAtChar ch cs with
      | none => none
      | some (a, b) => some (c :: a, b)

/-- ASCII lower-casing of one character (String.prototype.toLowerCase as it
acts on the ASCII error messages of this code base). -/
def asciiLower (c : Char) : Char :=
  if 'A' ≤ c && c ≤ 'Z' then Char.ofNat (c.toNat + 32) else c

/-- ASCII upper-casing of one character. -/
def asciiUpper (c : Char) : Char :=
  if 'a' ≤ c && c ≤ 'z' then Char.ofNat (c.toNat - 32) else c

/-- Lower-case a string (ASCII). -/
def lowerStr (s : String) : String := String.mk (s.toList.map asciiLower)

/-- Upper-case a string (ASCII). -/
def upperStr (s : String) : String := String.mk (s.toList.map asciiUpper)

/-- String.prototype.includes on strings. -/
def strIncludes (s pat : String) : Bool := containsSeq pat.toList s.toList

/-- Is the character a decimal digit? -/
def isDigitCh (c : Char) : Bool := '0' ≤ c && c ≤ '9'

/-- Is the character a JavaScript word character (the regexp class
backslash-w): letter, digit or underscore? -/
def isWordCh (c : Char) : Bool :=
  ('a' ≤ c && c ≤ 'z') || ('A' ≤ c && c ≤ 'Z') || isDigitCh c || c = '_'

/-- Is the character allowed to start a JavaScript identifier
([A-Za-z_$])? -/
def isIdentStartCh (c : Char) : Bool :=
  ('a' ≤ c && c ≤ 'z') || ('A' ≤ c && c ≤ 'Z') || c = '_' || c = '$'

/-- Is the character allowed inside a JavaScript identifier
([A-Za-z0-9_$])? -/
def isIdentCh (c : Char) : Bool := isIdentStartCh c || isDigitCh c

/-- One identifier segment: [A-Za-z_$][A-Za-z0-9_$]*. -/
def isIdentSeg : List Char → Bool
  | [] => false
  | c :: cs => isIdentStartCh c && cs.all isIdentCh

/-- A dotted identifier path: ident(.ident)*. This is the variable shape
accepted by resolveExpressionValue in the step executor. -/
def isIdentPath (l : List Char) : Bool :=
  (splitOnChar '.' l).all isIdentSeg && l ≠ []

/-- Digits of a list interpreted as a natural number (the list is assumed
to be all digits). -/
def digitsToNat (l : List Char) : Nat :=
  l.foldl (fun acc c => acc * 10 + (c.toNat - 48)) 0

/-- Does the list match the numeric literal regexp used by
resolveExpressionValue: optional minus sign, digits, then optionally a
dot and more digits? -/
def isNumLit (l : List Char) : Bool :=
  let body := match l with
    | '-' :: rest => rest
    | rest => rest
  match splitOnChar '.' body with
  | [ds] => ds ≠ [] && ds.all isDigitCh
  | [ds, fs] => ds ≠ [] && ds.all isDigitCh && fs ≠ [] && fs.all isDigitCh
  | _ => false

/-- Value of a numeric literal as a rational (Number(...) on a literal
matching the regexp above; exact decimals stand in for IEEE doubles,
which agree on every comparison of short decimal literals). -/
def numLitToRat (l : List Char) : Rat :=
  let (neg, body) := match l with
    | '-' :: rest => (true, rest)
    | rest => (false, rest)
  let q : Rat := match splitOnChar '.' body with
    | [ds] => (digitsToNat ds : Rat)
    | [ds, fs] => (digitsToNat ds : Rat) + (digitsToNat fs : Rat) / ((10 : Rat) ^ fs.length)
    | _ => 0
  if neg then -q else q

/-- The dynamic JavaScript value tree flowing through templates,
conditions and session state. Numbers are modelled as rationals (NaN and
signed zero are outside the model); objects are association lists in
insertion order. -/
inductive JSValue where
  | null
  | undefined
  | bool (b : Bool)
  | num (q : Rat)
  | str (s : String)
  | arr (elems : List JSValue)
  | obj (fields : List (String × JSValue))

/-- A JavaScript record (plain object used as a map). -/
def JRecord := List (String × JSValue)

/-- Association-list lookup (first binding wins, as in a JS object whose
keys are unique). -/
def recLookup (r : JRecord) (k : String) : Option JSValue :=
  match r with
  | [] => none
  | (k1, v) :: rest => if k1 = k then some v else recLookup rest k

/-- JavaScript object spread: keys of the left record in their order,
overridden by the right record, followed by keys only the right record
has. -/
def recordMerge (a b : JRecord) : JRecord :=
  a.map (fun kv => (kv.1, (recLookup b kv.1).getD kv.2)) ++
    b.filter (fun kv => (recLookup a kv.1).isNone)

/-- JavaScript canonical array index: a digit string without a leading
zero (or exactly 0). -/
def isCanonicalIndex (l : List Char) : Bool :=
  match l with
  | [] => false
  | ['0'] => true
  | c :: _ => isDigitCh c && c ≠ '0' && l.all isDigitCh

/-- Property access v[key] for the object-typed values reached by the
dotted-path resolvers (missing property gives undefined). -/
def jsGetProp (v : JSValue) (key : String) : JSValue :=
  match v with
  | .obj fields => (recLookup fields key).getD .undefined
  | .arr l =>
    if key = "length" then .num l.length
    else if isCanonicalIndex key.toList then (l.getD (digitsToNat key.toList) .undefined)
    else .undefined
  | _ => .undefined

/-- Is the value of typeof object (arrays, plain objects and null)? -/
def isObjectTy : JSValue → Bool
  | .obj _ => true
  | .arr _ => true
  | .null => true
  | _ => false

/-- JavaScript typeof, as a string. -/
def jsTypeof : JSValue → String
  | .null => "object"
  | .undefined => "undefined"
  | .bool _ => "boolean"
  | .num _ => "number"
  | .str _ => "string"
  | .arr _ => "object"
  | .obj _ => "object"

/-- Boolean(v): the JavaScript truthiness coercion used by the expression
evaluator for a single-value expression. Note that every array and every
object is truthy, including the empty array. -/
def jsTruthy : JSValue → Bool
  | .null => false
  | .undefined => false
  | .bool b => b
  | .num q => !(q = 0)
  | .str s => !(s = "")
  | .arr _ => true
  | .obj _ => true

/-- Loose null test (v == null): null or undefined. -/
def isNullish : JSValue → Bool
  | .null => true
  | .undefined => true
  | _ => false

/-- Strict equality (===) restricted to the cases expressible in a pure
model: structural on primitives; two array or object values compare
unequal, standing for distinct references (the evaluator never compares a
value against itself by reference). -/
def jsStrictEq : JSValue → JSValue → Bool
  | .null, .null => true
  | .undefined, .undefined => true
  | .bool a, .bool b => a = b
  | .num a, .num b => a = b
  | .str a, .str b => a = b
  | _, _ => false

/-- Rational rendered the way JavaScript prints an exact decimal number:
integers without a point, other values with the shortest terminating
decimal expansion (a fraction that does not terminate is printed as
num/den; unreachable from parsed literals). -/
def ratToString (q : Rat) : String :=
  if q.den = 1 then toString q.num
  else
    match (List.range 40).find? (fun k => (q * ((10 : Rat) ^ k)).den = 1) with
    | some k =>
      let m := (q * ((10 : Rat) ^ k)).num.natAbs
      let ip := m / 10 ^ k
      let fp := m % 10 ^ k
      let fpDigits := toString fp
      let pad := String.mk (List.replicate (k - fpDigits.length) '0')
      (if q < 0 then "-" else "") ++ toString ip ++ "." ++ pad ++ fpDigits
    | none => toString q.num ++ "/" ++ toString q.den

mutual
/-- String(v): JavaScript string coercion. -/
def jsToString : JSValue → String
  | .null => "null"
  | .undefined => "undefined"
  | .bool b => if b then "true" else "false"
  | .num q => ratToString q
  | .str s => s
  | .arr l => jsArrJoin l
  | .obj _ => "[object Object]"

/-- Array.prototype.join with comma: elements stringified, null and
undefined becoming the empty string. -/
def jsArrJoin : List JSValue → String
  | [] => ""
  | [v] => jsElemString v
  | v :: rest => jsElemString v ++ "," ++ jsArrJoin rest

/-- One array element as join renders it. -/
def jsElemString : JSValue → String
  | .null => ""
  | .undefined => ""
  | v => jsToString v
end

/-! ## Errors and the retry policy (src/engine/step-executor.ts, src/core/types.ts, src/core/errors.ts) -/

/-- The JavaScript error values thrown inside the execution core: plain
Error, ValidationError, StepExecutionError (workflow id and step id
attached) and TemplateError. -/
inductive JsErr where
  | error (message : String)
  | validationError (message : String)
  | stepExecutionError (message : String) (workflowId : String) (stepId : String)
  | templateError (message : String)
deriving DecidableEq

/-- The message carried by an error value. -/
def JsErr.message : JsErr → String
  | .error m => m
  | .validationError m => m
  | .stepExecutionError m _ _ => m
  | .templateError m => m

/-- The closed enum of retryable error classifications. -/
inductive RetryErrorPattern where
  | timeout
  | network_error
  | rate_limit
  | server_error
  | authentication_error
  | validation_error
  | resource_unavailable
  | temporary_failure
deriving DecidableEq

/-- RetryPolicy from core/types.ts. backoffMs is an Option so that a
policy object lacking the field at runtime is representable; retryOn is
optional. -/
structure RetryPolicy where
  maxAttempts : Nat
  backoffMs : Option Nat
  retryOn : Option (List RetryErrorPattern)

/-- The unknown value handed to classifyError: null/undefined, an Error
object, or a non-Error value coerced through String(...) (represented by
its string image). -/
inductive ErrVal where
  | nullv
  | err (e : JsErr)
  | str (s : String)

/-- The case-analysed message classifier body of classifyError, after the
message has been lower-cased. Translated from the if-chain in
StepExecutor.classifyError. -/
def classifyMsg (m : String) : RetryErrorPattern :=
  if strIncludes m "timeout" then .timeout
  else if strIncludes m "network" || strIncludes m "connection" then .network_error
  else if strIncludes m "rate limit" then .rate_limit
  else if strIncludes m "server error" || strIncludes m "500" then .server_error
  else if strIncludes m "auth" then .authentication_error
  else if strIncludes m "validation" then .validation_error
  else if strIncludes m "unavailable" || strIncludes m "busy" then .resource_unavailable
  else .temporary_failure

/-- StepExecutor.classifyError: falsy input is a temporary failure;
otherwise the lower-cased message (Error.message for Error values,
String(...) otherwise) is matched by the if-chain above. -/
def classifyError (error : ErrVal) : RetryErrorPattern :=
  match error with
  | .nullv => .temporary_failure
  | .str s => if s = "" then .temporary_failure else classifyMsg (lowerStr s)
  | .err e => classifyMsg (lowerStr e.message)

/-- The specification-side classifier: an ordered table of substring
pattern groups, first match wins (used to state that the code classifier
implements exactly this priority list). -/
def patternTable : List (List String × RetryErrorPattern) :=
  [ (["timeout"], .timeout)
  , (["network", "connection"], .network_error)
  , (["rate limit"], .rate_limit)
  , (["server error", "500"], .server_error)
  , (["auth"], .authentication_error)
  , (["validation"], .validation_error)
  , (["unavailable", "busy"], .resource_unavailable) ]

/-- First-match lookup in a pattern table. -/
def firstMatch (m : String) : List (List String × RetryErrorPattern) → RetryErrorPattern
  | [] => .temporary_failure
  | (pats, p) :: rest => if pats.any (fun pat => strIncludes m pat) then p else firstMatch m rest

/-- The classifier as the spec words it: case-insensitive substring match
with first-match-wins priority over the table, temporary_failure as the
default and for null or falsy non-Error input. -/
def specClassify (error : ErrVal) : RetryErrorPattern :=
  match error with
  | .nullv => .temporary_failure
  | .str s => if s = "" then .temporary_failure else firstMatch (lowerStr s) patternTable
  | .err e => firstMatch (lowerStr e.message) patternTable

/-- StepExecutor.shouldRetry: no policy means no retry; an exhausted
attempt budget means no retry; with retryOn present the classification
must be listed; otherwise retry. -/
def shouldRetry (rp : Option RetryPolicy) (error : JsErr) (retryCount : Nat) : Bool :=
  match rp with
  | none => false
  | some p =>
    if retryCount ≥ p.maxAttempts then false
    else match p.retryOn with
      | some pats => pats.contains (classifyError (.err error))
      | none => true

/-- JavaScript x || d on an optional number: the default replaces both a
missing field and a present 0 (0 is falsy). -/
def jsOrNat (x : Option Nat) (d : Nat) : Nat :=
  match x with
  | none => d
  | some v => if v = 0 then d else v

/-- StepExecutor.calculateRetryDelay: 1000 with no policy, otherwise
(backoffMs || 1000) * 2 ^ retryCount. -/
def calculateRetryDelay (rp : Option RetryPolicy) (retryCount : Nat) : Nat :=
  match rp with
  | none => 1000
  | some p => jsOrNat p.backoffMs 1000 * 2 ^ retryCount

/-! ## The safe expression evaluator (src/engine/step-executor.ts) -/

/-- StepExecutor.resolveValue: dotted-path traversal over the vars
record. Before each remaining key the current value must be non-null and
of typeof object, else undefined; property access follows jsGetProp. -/
def resolveValueGo : List (List Char) → JSValue → JSValue
  | [], current => current
  | k :: ks, current =>
    if isNullish current || !isObjectTy current then .undefined
    else resolveValueGo ks (jsGetProp current (String.mk k))

/-- resolveValue(path, vars). -/
def resolveValue (path : String) (vars : JRecord) : JSValue :=
  resolveValueGo (splitOnChar '.' path.toList) (.obj vars)

/-- StepExecutor.resolveExpressionValue: boolean, null, undefined,
numeric and quoted string literals, then dotted identifier paths; any
other shape throws. -/
def resolveExpressionValue (expr : List Char) (vars : JRecord) : Except JsErr JSValue :=
  let trimmed := jsTrim expr
  if trimmed = "true".toList then .ok (.bool true)
  else if trimmed = "false".toList then .ok (.bool false)
  else if trimmed = "null".toList then .ok .null
  else if trimmed = "undefined".toList then .ok .undefined
  else if isNumLit trimmed then .ok (.num (numLitToRat trimmed))
  else if (trimmed.head? = some dquote && trimmed.getLast? = some dquote) ||
          (trimmed.head? = some squote && trimmed.getLast? = some squote) then
    .ok (.str (String.mk (trimmed.drop 1).dropLast))
  else if isIdentPath trimmed then .ok (resolveValue (String.mk trimmed) vars)
  else .error (.error ("Cannot resolve expression value: " ++ String.mk expr))

/-- StepExecutor.compareValues, kept to its sign (its callers only
compare the result against 0): nullish pairs compare equal, a single
nullish side sorts first, numbers by subtraction, strings by
localeCompare (modelled as code-point order), and anything else by the
string images. -/
def compareValues (left right : JSValue) : Int :=
  if isNullish left && isNullish right then 0
  else if isNullish left then -1
  else if isNullish right then 1
  else match left, right with
    | .num a, .num b => if a < b then -1 else if a = b then 0 else 1
    | .str a, .str b => if a < b then -1 else if a = b then 0 else 1
    | a, b =>
      let sa := jsToString a
      let sb := jsToString b
      if sa < sb then -1 else if sa = sb then 0 else 1

/-- The comparison operators in the order the regexp alternation lists
them (longest first). -/
def compOps : List (List Char) :=
  ["===".toList, "==".toList, "!==".toList, "!=".toList,
   "<=".toList, ">=".toList, "<".toList, ">".toList]

/-- Try each operator of the alternation, in order, at the head of the
list; return the operator and the remainder. -/
def tryOpsAt (l : List Char) : Option (List Char × List Char) :=
  (compOps.find? (fun op => leadMatch op l)).map (fun op => (op, l.drop op.length))

/-- After the operator: the greedy whitespace block then a non-empty
remainder of non-newline characters, backtracking over the whitespace
count (the tail of the comparison regexp). -/
def matchRight (l : List Char) : Option (List Char) :=
  let maxJ := (l.takeWhile jsWhite).length
  (List.range (maxJ + 1)).reverse.firstM (fun j =>
    let r := l.drop j
    if r ≠ [] && r.all (fun c => c ≠ '\n') then some r else none)

/-- For a fixed left-split point: greedy whitespace, then the operator
alternation, then the right side. -/
def matchOpAndRight (rest : List Char) : Option (List Char × List Char) :=
  let maxJ := (rest.takeWhile jsWhite).length
  (List.range (maxJ + 1)).reverse.firstM (fun j =>
    match tryOpsAt (rest.drop j) with
    | some (op, afterOp) =>
      match matchRight afterOp with
      | some right => some (op, right)
      | none => none
    | none => none)

/-- The comparison regexp of safeExpressionEvaluator: a lazy non-empty
left side of non-newline characters, optional whitespace, one comparison
operator (alternation order as in the source), optional whitespace, and a
non-empty right side; left split points are tried shortest first. -/
def compMatch (expr : List Char) : Option (List Char × List Char × List Char) :=
  (List.range expr.length).firstM (fun i =>
    let i := i + 1
    let left := expr.take i
    if left.length = i && left.all (fun c => c ≠ '\n') then
      match matchOpAndRight (expr.drop i) with
      | some (op, right) => some (left, op, right)
      | none => none
    else none)

/-- Apply one comparison operator to two resolved values, as the switch
in safeExpressionEvaluator does. -/
def applyCompOp (op : List Char) (l r : JSValue) : Except JsErr Bool :=
  if op = "===".toList || op = "==".toList then .ok (jsStrictEq l r)
  else if op = "!==".toList || op = "!=".toList then .ok (!jsStrictEq l r)
  else if op = "<".toList then .ok (compareValues l r < 0)
  else if op = "<=".toList then .ok (compareValues l r ≤ 0)
  else if op = ">".toList then .ok (compareValues l r > 0)
  else if op = ">=".toList then .ok (compareValues l r ≥ 0)
  else .error (.error ("Unsupported operator: " ++ String.mk op))

/-- Array.prototype.every with a fallible monadic predicate: left to
right, stopping at the first false part. -/
def everyM (f : List Char → Except JsErr Bool) : List (List Char) → Except JsErr Bool
  | [] => .ok true
  | p :: ps => do
    let b ← f p
    if b then everyM f ps else .ok false

/-- Array.prototype.some with a fallible monadic predicate: left to
right, stopping at the first true part. -/
def someM (f : List Char → Except JsErr Bool) : List (List Char) → Except JsErr Bool
  | [] => .ok false
  | p :: ps => do
    let b ← f p
    if b then .ok true else someM f ps

/-- StepExecutor.safeExpressionEvaluator, fuel-indexed (the source
recursion always acts on a strictly shorter string, so a fuel of one more
than the length of the expression can never run out). Order of the
checks is the order of the source: double ampersand split (every part
must hold), double pipe split (some part must hold), negation, full
parenthesis wrap, comparison, single value. -/
def safeEvalGo (fuel : Nat) (exprRaw : List Char) (vars : JRecord) : Except JsErr Bool :=
  match fuel with
  | 0 => .error (.error "fuel exhausted")
  | fuel + 1 =>
    let expr := jsTrim exprRaw
    if containsSeq "&&".toList expr then
      everyM (fun p => safeEvalGo fuel p vars) ((splitOnSeq "&&".toList expr).map jsTrim)
    else if containsSeq "||".toList expr then
      someM (fun p => safeEvalGo fuel p vars) ((splitOnSeq "||".toList expr).map jsTrim)
    else if expr.head? = some '!' then
      (safeEvalGo fuel (jsTrim (expr.drop 1)) vars).map (fun b => !b)
    else if expr.head? = some '(' && expr.getLast? = some ')' &&
            (expr.drop 1).dropLast ≠ [] &&
            ((expr.drop 1).dropLast).all (fun c => c ≠ '\n') then
      safeEvalGo fuel ((expr.drop 1).dropLast) vars
    else match compMatch expr with
      | some (left, op, right) => do
        let lv ← resolveExpressionValue (jsTrim left) vars
        let rv ← resolveExpressionValue (jsTrim right) vars
        applyCompOp op lv rv
      | none => do
        let v ← resolveExpressionValue expr vars
        .ok (jsTruthy v)

/-- safeExpressionEvaluator(expression, vars). -/
def safeExpressionEvaluator (expression : String) (vars : JRecord) : Except JsErr Bool :=
  safeEvalGo (expression.toList.length + 1) expression.toList vars

/-- StepExecutor.evaluateCondition: any failure inside the evaluator is
replaced by a ValidationError naming the condition. -/
def evaluateCondition (condition : String) (vars : JRecord) : Except JsErr Bool :=
  match safeExpressionEvaluator condition vars with
  | .ok b => .ok b
  | .error _ => .error (.validationError ("Invalid condition: " ++ condition))

/-! ## The template engine (src/templates/template-engine.ts) -/

/-- Token kinds produced by TemplateEngine.tokenize. -/
inductive TokenType where
  | TEXT
  | VARIABLE
  | IF_START
  | IF_END
  | FOREACH_START
  | FOREACH_END
deriving DecidableEq

/-- A token: kind, payload and source position. -/
structure Token where
  ttype : TokenType
  value : String
  position : Nat
deriving DecidableEq

/-- AST of a parsed template. The false branch of a conditional exists in
the source type but is never populated by the parser. -/
inductive ASTNode where
  | text (value : String)
  | varNode (path : String) (filters : List String)
  | condNode (condition : String) (trueBranch : List ASTNode)
      (falseBranch : Option (List ASTNode))
  | loopNode (itemName : String) (collectionPath : String) (body : List ASTNode)

/-- Classify the trimmed contents of one dollar-brace expression, as
tokenize does: an if header, endif, a foreach header, endforeach, or a
variable expression. -/
def classifyExpr (expr : List Char) (pos : Nat) : Token :=
  if leadMatch "if ".toList expr then
    ⟨.IF_START, String.mk (jsTrim (expr.drop 3)), pos⟩
  else if expr = "endif".toList then ⟨.IF_END, "", pos⟩
  else if leadMatch "foreach ".toList expr then
    ⟨.FOREACH_START, String.mk (jsTrim (expr.drop 8)), pos⟩
  else if expr = "endforeach".toList then ⟨.FOREACH_END, "", pos⟩
  else ⟨.VARIABLE, String.mk expr, pos⟩

/-- TemplateEngine.tokenize, fuel-indexed (each step consumes at least
one character, so length + 1 fuel suffices). The escape backslash dollar
brace puts a literal dollar brace in the text buffer; a dollar brace
opens an expression that runs to the next closing brace (error if none);
everything else is buffered text. -/
def tokenizeGo (fuel : Nat) (cs : List Char) (pos : Nat) (buf : List Char)
    (acc : List Token) : Except JsErr (List Token) :=
  match fuel with
  | 0 => .error (.templateError "fuel exhausted")
  | fuel + 1 =>
    match cs with
    | [] => .ok (acc ++ if buf ≠ [] then [⟨.TEXT, String.mk buf, pos⟩] else [])
    | c :: rest =>
      if leadMatch ['\\', '$', lbrace] cs then
        tokenizeGo fuel (cs.drop 3) (pos + 3) (buf ++ ['$', lbrace]) acc
      else if leadMatch ['$', lbrace] cs then
        let acc := acc ++ if buf ≠ [] then [⟨.TEXT, String.mk buf, pos⟩] else []
        match breakAtChar rbrace (cs.drop 2) with
        | none =>
          .error (.templateError ("Unclosed template expression at position " ++ toString pos))
        | some (exprCs, rest2) =>
          tokenizeGo fuel rest2 (pos + exprCs.length + 3) []
            (acc ++ [classifyExpr (jsTrim exprCs) pos])
      else
        tokenizeGo fuel rest (pos + 1) (buf ++ [c]) acc

/-- tokenize(template). -/
def tokenize (template : String) : Except JsErr (List Token) :=
  tokenizeGo (template.toList.length + 1) template.toList 0 [] []

/-- The names of the built-in filters (the keys of FILTERS). -/
def filterNames : List String :=
  ["uppercase", "lowercase", "truncate", "capitalize", "trim", "default"]

/-- TemplateEngine.parseVariable: split the expression on pipes, the
first part is the path, the rest are filter expressions whose names
(the part before any opening parenthesis, trimmed) must be known. -/
def parseVariable (expression : String) : Except JsErr ASTNode :=
  let parts := (splitOnChar '|' expression.toList).map jsTrim
  let path := String.mk (parts.headD [])
  let filters := (parts.drop 1).map String.mk
  let bad := filters.find? (fun f =>
    let fname := String.mk (jsTrim ((splitOnChar '(' f.toList).headD []))
    !(filterNames.contains fname))
  match bad with
  | some f =>
    .error (.templateError ("Unknown filter: " ++
      String.mk (jsTrim ((splitOnChar '(' f.toList).headD []))))
  | none => .ok (.varNode path filters)

/-- The foreach header regexp: a word-character name, whitespace, the
word in, whitespace, and a non-empty collection path of non-newline
characters. -/
def matchForeach (l : List Char) : Option (String × String) :=
  let name := l.takeWhile isWordCh
  let rest1 := l.drop name.length
  let sp1 := rest1.takeWhile jsWhite
  let rest2 := rest1.drop sp1.length
  if name ≠ [] && sp1 ≠ [] && leadMatch "in".toList rest2 then
    let rest3 := rest2.drop 2
    let sp2 := rest3.takeWhile jsWhite
    let path := rest3.drop sp2.length
    if sp2 ≠ [] && path ≠ [] && path.all (fun c => c ≠ '\n') then
      some (String.mk name, String.mk path)
    else none
  else none

/-- Where a token sequence is being parsed: at top level (buildAST), in a
conditional body (parseConditional) or in a loop body (parseLoop). -/
inductive PMode where
  | top
  | inIf
  | inForeach
deriving DecidableEq

/-- The token-list parser: buildAST, parseConditional and parseLoop of
the source merged into one fuel-indexed recursion over the token list.
Terminators close the matching mode, are an error elsewhere; openers
parse a nested block then continue; the token list only ever shrinks so
length + 1 fuel suffices. Returns the nodes and the unconsumed
remainder. -/
def parseSeqGo (fuel : Nat) (mode : PMode) (tokens : List Token) :
    Except JsErr (List ASTNode × List Token) :=
  match fuel with
  | 0 => .error (.templateError "fuel exhausted")
  | fuel + 1 =>
    match tokens with
    | [] =>
      match mode with
      | .top => .ok ([], [])
      | .inIf => .error (.templateError "Unclosed conditional block")
      | .inForeach => .error (.templateError "Unclosed foreach block")
    | t :: rest =>
      match t.ttype with
      | .TEXT => do
        let (ns, rem) ← parseSeqGo fuel mode rest
        .ok (.text t.value :: ns, rem)
      | .VARIABLE => do
        let n ← parseVariable t.value
        let (ns, rem) ← parseSeqGo fuel mode rest
        .ok (n :: ns, rem)
      | .IF_END =>
        match mode with
        | .inIf => .ok ([], rest)
        | .top =>
          .error (.templateError ("Unexpected token IF_END at position " ++ toString t.position))
        | .inForeach =>
          .error (.templateError ("Unexpected token in loop at position " ++ toString t.position))
      | .FOREACH_END =>
        match mode with
        | .inForeach => .ok ([], rest)
        | .top =>
          .error (.templateError
            ("Unexpected token FOREACH_END at position " ++ toString t.position))
        | .inIf =>
          .error (.templateError
            ("Unexpected token in conditional at position " ++ toString t.position))
      | .IF_START => do
        let (tb, rest2) ← parseSeqGo fuel .inIf rest
        let (ns, rem) ← parseSeqGo fuel mode rest2
        .ok (.condNode t.value tb none :: ns, rem)
      | .FOREACH_START =>
        match matchForeach t.value.toList with
        | none =>
          .error (.templateError ("Invalid foreach syntax: " ++ t.value ++
            ". Expected: item in collection"))
        | some (nm, cp) => do
          let (body, rest2) ← parseSeqGo fuel .inForeach rest
          let (ns, rem) ← parseSeqGo fuel mode rest2
          .ok (.loopNode nm cp body :: ns, rem)

/-- TemplateEngine.parse: tokenize then build the AST (the per-instance
compiled cache of the source is semantically transparent for a pure
parse and is not modelled). -/
def parse (template : String) : Except JsErr (List ASTNode) := do
  let tks ← tokenize template
  let (ns, _) ← parseSeqGo (tks.length + 1) .top tks
  .ok ns

/-- TemplateEngine.resolvePath: the path dot is the whole context;
otherwise dotted traversal requiring at each step a non-null object-typed
value owning the key (hasOwnProperty). -/
def resolvePathGo : List (List Char) → JSValue → JSValue
  | [], v => v
  | k :: ks, v =>
    if isNullish v then .undefined
    else
      let key := String.mk k
      let owns := match v with
        | .obj fields => (recLookup fields key).isSome
        | .arr l => key = "length" ||
            (isCanonicalIndex k && digitsToNat k < l.length)
        | _ => false
      if isObjectTy v && owns then resolvePathGo ks (jsGetProp v key)
      else .undefined

/-- resolvePath(path, context). -/
def resolvePath (path : String) (context : JRecord) : JSValue :=
  if path = "." then .obj context
  else resolvePathGo (splitOnChar '.' path.toList) (.obj context)

/-- TemplateEngine.isTruthy: null, undefined, false, 0, the empty string
and the empty array are falsy; everything else is truthy. Note the empty
array is falsy here but truthy under the Boolean coercion jsTruthy. -/
def isTruthy : JSValue → Bool
  | .null => false
  | .undefined => false
  | .bool b => b
  | .num q => !(q = 0)
  | .str s => !(s = "")
  | .arr l => !(l.length = 0)
  | .obj _ => true

/-- parseInt(s, 10): skip leading whitespace, optional sign, then leading
digits; none when there is no digit (NaN). -/
def jsParseInt (s : String) : Option Int :=
  let l := dropWhiteL s.toList
  let (neg, body) := match l with
    | '-' :: rest => (true, rest)
    | '+' :: rest => (false, rest)
    | rest => (false, rest)
  let ds := body.takeWhile isDigitCh
  if ds = [] then none
  else some (if neg then -(digitsToNat ds : Int) else (digitsToNat ds : Int))

/-- One built-in filter applied to the current value with its string
arguments (FILTERS in template-engine.ts). -/
def applyFilter (name : String) (v : JSValue) (args : List String) : String :=
  if name = "uppercase" then upperStr (jsToString v)
  else if name = "lowercase" then lowerStr (jsToString v)
  else if name = "truncate" then
    let s := jsToString v
    let lenArg := args.headD "50"
    match jsParseInt lenArg with
    | none => s
    | some n =>
      if (s.length : Int) > n then String.mk (s.toList.take n.toNat) ++ "..." else s
  else if name = "capitalize" then
    let s := jsToString v
    match s.toList with
    | [] => ""
    | c :: rest => String.mk (asciiUpper c :: rest.map asciiLower)
  else if name = "trim" then String.mk (jsTrim (jsToString v).toList)
  else if name = "default" then
    let dflt := args.headD ""
    match v with
    | .null => dflt
    | .undefined => dflt
    | .str s => if s = "" then dflt else s
    | other => jsToString other
  else ""

/-- The filter-expression regexp of evaluateVariable: a word-character
name optionally followed by a parenthesised argument list without closing
parentheses inside. Returns the name and the optional raw argument
string. -/
def matchFilter (l : List Char) : Option (String × Option String) :=
  let name := l.takeWhile isWordCh
  let rest := l.drop name.length
  if name = [] then none
  else match rest with
    | [] => some (String.mk name, none)
    | '(' :: more =>
      match more.getLast? with
      | some ')' =>
        let inner := more.dropLast
        if inner.all (fun c => c ≠ ')') then some (String.mk name, some (String.mk inner))
        else none
      | _ => none
    | _ => none

/-- TemplateEngine.evaluateVariable: resolve the path; a null or
undefined value with filters present becomes the empty string before
filters run; each filter expression is re-parsed and applied left to
right; the final value is String(value), null and undefined giving the
empty string. -/
def evaluateVariable (path : String) (filters : List String) (context : JRecord) :
    Except JsErr String :=
  let v0 := resolvePath path context
  let v0 := match filters, v0 with
    | _ :: _, .null => .str ""
    | _ :: _, .undefined => .str ""
    | _, v => v
  let applyOne : JSValue → String → Except JsErr JSValue := fun v fe =>
    match matchFilter fe.toList with
    | none => .error (.templateError ("Invalid filter syntax: " ++ fe))
    | some (fname, argsStr) =>
      if filterNames.contains fname then
        let args := match argsStr with
          | none => []
          | some s => if s = "" then [] else (splitOnChar ',' s.toList).map
              (fun a => String.mk (jsTrim a))
        .ok (.str (applyFilter fname v args))
      else .error (.templateError ("Unknown filter: " ++ fname))
  let folded := filters.foldlM applyOne v0
  folded.map (fun v => match v with
    | .null => ""
    | .undefined => ""
    | v => jsToString v)

mutual
/-- TemplateEngine.evaluate over a node list: concatenation of the
rendered nodes. -/
def evaluateNodes (nodes : List ASTNode) (context : JRecord) : Except JsErr String :=
  match nodes with
  | [] => .ok ""
  | n :: ns => do
    let s ← evaluateNode n context
    let r ← evaluateNodes ns context
    .ok (s ++ r)

/-- One node: text verbatim; a variable through evaluateVariable; a
conditional through resolvePath and isTruthy (empty string when falsy and
no false branch); a loop over an array collection (empty string for a
non-array). -/
def evaluateNode (node : ASTNode) (context : JRecord) : Except JsErr String :=
  match node with
  | .text v => .ok v
  | .varNode p fs => evaluateVariable p fs context
  | .condNode c tb fb =>
    if isTruthy (resolvePath c context) then evaluateNodes tb context
    else match fb with
      | some f => evaluateNodes f context
      | none => .ok ""
  | .loopNode nm cp body =>
    match resolvePath cp context with
    | .arr items => evalLoopItems items nm body context
    | _ => .ok ""

/-- The loop body evaluated once per element under a context that binds
the loop variable to the element (spread, so the binding shadows any
outer key of the same name). -/
def evalLoopItems (items : List JSValue) (nm : String) (body : List ASTNode)
    (context : JRecord) : Except JsErr String :=
  match items with
  | [] => .ok ""
  | it :: its => do
    let s ← evaluateNodes body (recordMerge context [(nm, it)])
    let r ← evalLoopItems its nm body context
    .ok (s ++ r)
end

/-- TemplateEngine.render: parse then evaluate. -/
def render (template : String) (context : JRecord) : Except JsErr String := do
  let ast ← parse template
  evaluateNodes ast context

/-! ## The step executor (src/engine/step-executor.ts) -/

/-- Result of a step execution. -/
structure StepResult where
  outputs : JRecord
  shouldContinue : Bool
  nextStepIndex : Option Nat

/-- A workflow step as the executor dispatches on it. The three leaf
types (ai-prompt, script, validation) perform external I/O (the AI
collaborator, a subprocess, or nothing beyond the pure condition check);
they are abstracted as prim with an attempt-indexed body taking the
variables and the current retryCount (the executor threads both through
the step context). Loops and conditionals are modelled concretely. -/
inductive StepT where
  | prim (id : String) (retryPolicy : Option RetryPolicy)
      (body : JRecord → Nat → Except JsErr StepResult)
  | loopN (id : String) (retryPolicy : Option RetryPolicy)
      (items : String) (steps : List StepT)
  | condN (id : String) (retryPolicy : Option RetryPolicy)
      (condition : String) (steps : List StepT)

/-- The retry policy attached to a step. -/
def StepT.retryPolicy : StepT → Option RetryPolicy
  | .prim _ rp _ => rp
  | .loopN _ rp _ _ => rp
  | .condN _ rp _ _ => rp

/-- The id of a step. -/
def StepT.stepId : StepT → String
  | .prim i _ _ => i
  | .loopN i _ _ _ => i
  | .condN i _ _ _ => i

mutual
/-- StepExecutor.executeStepByType: dispatch on the step type. Children
of loops and conditionals are executed through this dispatch directly,
never through the retry wrapper executeStep. -/
def executeStepByType (s : StepT) (vars : JRecord) (rc : Nat) : Except JsErr StepResult :=
  match s with
  | .prim _ _ body => body vars rc
  | .loopN sid _ items steps =>
    if items = "" then
      .error (.stepExecutionError "Loop step requires items and steps configuration"
        "unknown-workflow" sid)
    else
      match resolveValue items vars with
      | .arr l => do
        let iters ← runLoopIters l 0 l.length steps vars rc
        .ok ⟨[("iterations", .arr iters), ("total_count", .num l.length)], true, none⟩
      | v =>
        .error (.stepExecutionError ("Loop items must be an array, got " ++ jsTypeof v)
          "unknown-workflow" sid)
  | .condN sid _ condition steps =>
    if condition = "" then
      .error (.stepExecutionError "Conditional step requires condition and steps configuration"
        "unknown-workflow" sid)
    else do
      let rendered ← render condition vars
      let shouldExecute ← evaluateCondition rendered vars
      if shouldExecute then do
        let stepOutputs ← runChildren steps vars rc []
        .ok ⟨[("condition", .str rendered), ("executed", .bool true),
              ("outputs", .obj stepOutputs)], true, none⟩
      else
        .ok ⟨[("condition", .str rendered), ("executed", .bool false)], true, none⟩

/-- The inner child loop shared by executeLoop (per iteration) and
executeConditional: execute each child through the type dispatch, merge
its outputs into the accumulator, and stop early when a child clears
shouldContinue. A child failure propagates immediately. -/
def runChildren (cs : List StepT) (vars : JRecord) (rc : Nat) (acc : JRecord) :
    Except JsErr JRecord :=
  match cs with
  | [] => .ok acc
  | c :: rest => do
    let r ← executeStepByType c vars rc
    let acc := recordMerge acc r.outputs
    if r.shouldContinue then runChildren rest vars rc acc else .ok acc

/-- The per-item loop of executeLoop: each element gets a derived
variables record binding item, index, first and last, the children run
under it, and the iteration record is accumulated. -/
def runLoopIters (items : List JSValue) (idx : Nat) (total : Nat) (steps : List StepT)
    (vars : JRecord) (rc : Nat) : Except JsErr (List JSValue) :=
  match items with
  | [] => .ok []
  | it :: its => do
    let iterVars := recordMerge vars
      [("item", it), ("index", .num idx), ("first", .bool (idx = 0)),
       ("last", .bool (idx = total - 1))]
    let outs ← runChildren steps iterVars rc []
    let rest ← runLoopIters its (idx + 1) total steps vars rc
    .ok (.obj [("index", .num idx), ("item", it), ("outputs", .obj outs)] :: rest)
end

/-- Attempts remaining for the termination measure of the retry wrapper. -/
def policyAttempts : Option RetryPolicy → Nat
  | some p => p.maxAttempts
  | none => 0

/-- A positive shouldRetry implies a policy with attempts left. -/
theorem shouldRetry_lt {rp : Option RetryPolicy} {e : JsErr} {rc : Nat}
    (h : shouldRetry rp e rc = true) : rc < policyAttempts rp := by
  match rp with
  | none => simp [shouldRetry] at h
  | some p =>
    simp only [shouldRetry] at h
    by_cases hge : rc ≥ p.maxAttempts
    · simp [hge] at h
    · simpa [policyAttempts] using Nat.lt_of_not_le hge

/-- StepExecutor.executeStep: the retry wrapper around the type
dispatch, instrumented with a trace. The first component counts how
often the step body (the dispatch) ran, the second lists the sleep
delays in order, the third is the final result. On an error the policy
is consulted; a retry sleeps for the computed delay and recurses with
retryCount + 1; otherwise the error is rethrown. -/
def executeStep (s : StepT) (vars : JRecord) (rc : Nat) :
    Nat × List Nat × Except JsErr StepResult :=
  match executeStepByType s vars rc with
  | .ok r => (1, [], .ok r)
  | .error e =>
    if h : shouldRetry s.retryPolicy e rc = true then
      let d := calculateRetryDelay s.retryPolicy rc
      let rest := executeStep s vars (rc + 1)
      (rest.1 + 1, d :: rest.2.1, rest.2.2)
    else
      (1, [], .error e)
termination_by policyAttempts s.retryPolicy - rc
decreasing_by
  have := shouldRetry_lt h
  omega

/-! ## The state manager (src/state/state-manager.ts) -/

/-- Workflow status values, one per storage partition. -/
inductive WorkflowStatus where
  | running
  | paused
  | completed
  | failed
deriving DecidableEq

/-- The partition probe order of findSessionFile (the iteration order of
the statusDirs record literal). -/
def statusScanOrder : List WorkflowStatus :=
  [.running, .paused, .completed, .failed]

/-- One step execution history record (only the fields the state-manager
operations touch are structural; the payload is carried opaquely). -/
structure StepExecution where
  stepId : String
  status : String
  retryCount : Nat
deriving DecidableEq

/-- The persisted session record (dates as numeric timestamps). -/
structure WorkflowSessionState where
  sessionId : String
  workflowId : String
  status : WorkflowStatus
  inputs : JRecord
  context : JRecord
  outputs : JRecord
  stepExecutions : List StepExecution
  currentStepIndex : Nat
  createdAt : Nat
  updatedAt : Nat

/-- StateManager.createSession builds this initial state: status
running, empty history, index 0, context holding the inputs and empty
variables and outputs records. -/
def createSessionState (sessionId workflowId : String) (inputs : JRecord) (now : Nat) :
    WorkflowSessionState :=
  { sessionId := sessionId
    workflowId := workflowId
    status := .running
    inputs := inputs
    context := [("inputs", .obj inputs), ("variables", .obj []), ("outputs", .obj [])]
    outputs := []
    stepExecutions := []
    currentStepIndex := 0
    createdAt := now
    updatedAt := now }

/-- The record transformation of StateManager.addStepExecution: append
the record and increment currentStepIndex by one. -/
def addStepExecutionState (s : WorkflowSessionState) (e : StepExecution) (now : Nat) :
    WorkflowSessionState :=
  { s with stepExecutions := s.stepExecutions ++ [e],
           currentStepIndex := s.currentStepIndex + 1,
           updatedAt := now }

/-- The record transformation of StateManager.updateContext: shallow
merge of the patch into the context. -/
def updateContextState (s : WorkflowSessionState) (patch : JRecord) (now : Nat) :
    WorkflowSessionState :=
  { s with context := recordMerge s.context patch, updatedAt := now }

/-- The record transformation of StateManager.updateSessionStatus. -/
def updateSessionStatusState (s : WorkflowSessionState) (st : WorkflowStatus) (now : Nat) :
    WorkflowSessionState :=
  { s with status := st, updatedAt := now }

/-- The timestamp restamping every saveSession performs. -/
def stampState (s : WorkflowSessionState) (now : Nat) : WorkflowSessionState :=
  { s with updatedAt := now }

/-- One state-manager mutation, for reachability over operation
sequences. -/
inductive SessionOp where
  | addStep (e : StepExecution) (now : Nat)
  | updCtx (patch : JRecord) (now : Nat)
  | updStatus (st : WorkflowStatus) (now : Nat)
  | resave (now : Nat)

/-- Apply one mutation to the persisted record. -/
def applySessionOp (s : WorkflowSessionState) : SessionOp → WorkflowSessionState
  | .addStep e now => addStepExecutionState s e now
  | .updCtx patch now => updateContextState s patch now
  | .updStatus st now => updateSessionStatusState s st now
  | .resave now => stampState s now

/-- Apply a sequence of mutations. -/
def applySessionOps (s : WorkflowSessionState) (ops : List SessionOp) : WorkflowSessionState :=
  ops.foldl applySessionOp s

/-- The session-state invariant named by the spec. -/
def stepIndexInv (s : WorkflowSessionState) : Prop :=
  s.currentStepIndex = s.stepExecutions.length

/-- One status partition on disk: the real session files and the
temporary dot-tmp files, each an association list from session id to the
stored record. -/
structure Partition where
  real : List (String × WorkflowSessionState)
  tmp : List (String × WorkflowSessionState)

/-- The on-disk state directory: one partition per status. -/
def FS := WorkflowStatus → Partition

/-- Association lookup in a partition listing. -/
def fsLookup (l : List (String × WorkflowSessionState)) (k : String) :
    Option WorkflowSessionState :=
  match l with
  | [] => none
  | (k1, v) :: rest => if k1 = k then some v else fsLookup rest k

/-- Overwrite or create the entry for a key. -/
def fsSet (l : List (String × WorkflowSessionState)) (k : String)
    (v : WorkflowSessionState) : List (String × WorkflowSessionState) :=
  match l with
  | [] => [(k, v)]
  | (k1, v1) :: rest => if k1 = k then (k, v) :: rest else (k1, v1) :: fsSet rest k v

/-- Remove the entry for a key (unlink). -/
def fsErase (l : List (String × WorkflowSessionState)) (k : String) :
    List (String × WorkflowSessionState) :=
  l.filter (fun kv => kv.1 ≠ k)

/-- Replace one partition of the filesystem. -/
def fsUpdate (fs : FS) (st : WorkflowStatus) (p : Partition) : FS :=
  fun st1 => if st1 = st then p else fs st1

/-- A state error: message, optional session id, optional operation
tag. -/
structure StateErrorS where
  message : String
  sessionId : Option String
  operation : Option Bool
deriving DecidableEq

/-- The write operation tag. -/
def opWrite : Option Bool := some true
/-- The read operation tag. -/
def opRead : Option Bool := some false

/-- How one saveSession run can go: the temp-file write and the rename
both succeed; the write fails; or the rename fails. The failing cases
carry the underlying cause message and whether the best-effort temp-file
unlink succeeds. -/
inductive SaveOutcome where
  | ok
  | writeFail (cause : String) (cleanupOk : Bool)
  | renameFail (cause : String) (cleanupOk : Bool)

/-- StateManager.saveSession on the filesystem model: stamp updatedAt,
write the record to the dot-tmp name in the partition of state.status,
rename it onto the real name. On failure, best-effort unlink of the temp
file (ignored when it fails too) and a StateError tagged with the session
id and operation write. Returns the resulting filesystem and the raised
error, if any. -/
def saveSessionFS (fs : FS) (state : WorkflowSessionState) (now : Nat)
    (outcome : SaveOutcome) : FS × Option StateErrorS :=
  let st := state.status
  let p := fs st
  let stamped := stampState state now
  match outcome with
  | .ok =>
    (fsUpdate fs st { real := fsSet p.real state.sessionId stamped,
                      tmp := fsErase p.tmp state.sessionId }, none)
  | .writeFail cause cleanupOk =>
    let tmp1 := fsSet p.tmp state.sessionId stamped
    let tmp2 := if cleanupOk then fsErase tmp1 state.sessionId else tmp1
    (fsUpdate fs st { real := p.real, tmp := tmp2 },
     some ⟨"Failed to save session " ++ state.sessionId ++ ": " ++ cause,
           some state.sessionId, opWrite⟩)
  | .renameFail cause cleanupOk =>
    let tmp1 := fsSet p.tmp state.sessionId stamped
    let tmp2 := if cleanupOk then fsErase tmp1 state.sessionId else tmp1
    (fsUpdate fs st { real := p.real, tmp := tmp2 },
     some ⟨"Failed to save session " ++ state.sessionId ++ ": " ++ cause,
           some state.sessionId, opWrite⟩)

/-- StateManager.findSessionFile: probe the partitions in the fixed scan
order for a real file of this session id; the first hit wins. -/
def findSessionFS (fs : FS) (sessionId : String) : Option WorkflowStatus :=
  statusScanOrder.find? (fun st => (fsLookup (fs st).real sessionId).isSome)

/-- StateManager.loadSession: with an expected status, read that
partition directly; without one, scan all partitions. A missing file is
a read-tagged StateError. -/
def loadSessionFS (fs : FS) (sessionId : String) (expectedStatus : Option WorkflowStatus) :
    Except StateErrorS WorkflowSessionState :=
  match expectedStatus with
  | some st =>
    match fsLookup (fs st).real sessionId with
    | some c => .ok c
    | none => .error ⟨"Session " ++ sessionId ++ " not found", some sessionId, opRead⟩
  | none =>
    match findSessionFS fs sessionId with
    | some st =>
      match fsLookup (fs st).real sessionId with
      | some c => .ok c
      | none => .error ⟨"Session " ++ sessionId ++ " not found", some sessionId, opRead⟩
    | none =>
      .error ⟨"Session " ++ sessionId ++ " not found in any directory",
              some sessionId, opRead⟩

/-- StateManager.updateSessionStatus: load wherever the session is, save
a copy with the new status (into the new partition), then delete the old
partition file only if the status actually changed; a failing unlink is
logged and ignored. The path of the deleted file is derived from the
status stored in the loaded record. -/
def updateSessionStatusFS (fs : FS) (sessionId : String) (newStatus : WorkflowStatus)
    (now : Nat) (saveOut : SaveOutcome) (unlinkOk : Bool) : Except StateErrorS FS := do
  let cur ← loadSessionFS fs sessionId none
  let updated := updateSessionStatusState cur newStatus now
  let (fs1, err) := saveSessionFS fs updated now saveOut
  match err with
  | some e => .error e
  | none =>
    if cur.status ≠ newStatus then
      if unlinkOk then
        let old := fs1 cur.status
        .ok (fsUpdate fs1 cur.status { real := fsErase old.real sessionId, tmp := old.tmp })
      else .ok fs1
    else .ok fs1

/-! ## Theorems -/

/-- C5 counterexample: a policy with backoffMs 0 yields a delay of 1000,
not the 0 the claim computes, because the JavaScript or-default also
replaces a present 0. -/
theorem calculateRetryDelay_zero_backoff_ce :
    calculateRetryDelay (some ⟨2, some 0, none⟩) 0 = 1000 ∧ (0 : Nat) * 2 ^ 0 ≠ 1000 := by
  constructor
  · rfl
  · decide

/-- C5 (amended): the delay is backoffMs * 2 ^ retryCount for every
backoffMs that is at least 1; the 1000 default applies both when the
policy lacks the backoffMs field and when backoffMs is 0 (JavaScript
falsiness), so backoffMs 0 gives 1000 * 2 ^ retryCount. -/
theorem calculateRetryDelay_amended :
    ∀ (m : Nat) (ro : Option (List RetryErrorPattern)) (b : Nat) (rc : Nat),
      (b ≠ 0 → calculateRetryDelay (some ⟨m, some b, ro⟩) rc = b * 2 ^ rc) ∧
      calculateRetryDelay (some ⟨m, some 0, ro⟩) rc = 1000 * 2 ^ rc ∧
      calculateRetryDelay (some ⟨m, none, ro⟩) rc = 1000 * 2 ^ rc := by
  intro m ro b rc
  refine ⟨fun hb => ?_, ?_, ?_⟩ <;> simp [calculateRetryDelay, jsOrNat, *]

/-- C5 witness: the amended statement at maxAttempts 2, backoffMs 100,
retryCount 3. -/
theorem calculateRetryDelay_amended_witness :
    calculateRetryDelay (some ⟨2, some 100, none⟩) 3 = 100 * 2 ^ 3 :=
  (calculateRetryDelay_amended 2 none 100 3).1 (by decide)

/-- C6 counterexample: on the empty array the two truthiness rules
disagree: the expression evaluator (Boolean coercion of a single-value
expression) takes it as true, the template engine takes it as false. -/
theorem truthiness_empty_array_ce :
    safeExpressionEvaluator "xs" [("xs", .arr [])] = .ok true ∧
      isTruthy (.arr []) = false ∧ jsTruthy (.arr []) = true := by
  exact ⟨rfl, rfl, rfl⟩

/-- C6 (amended): the template-engine truthiness and the expression
evaluator Boolean coercion agree on every value that is not the empty
array (false, 0, the empty string, null and undefined falsy, everything
else truthy); they differ exactly on the empty array, which the template
engine rejects and the evaluator accepts. -/
theorem truthiness_agreement_amended :
    (∀ v : JSValue, v ≠ .arr [] → isTruthy v = jsTruthy v) ∧
      isTruthy (.arr []) = false ∧
      safeExpressionEvaluator "xs" [("xs", .arr [])] = .ok true := by
  refine ⟨fun v hv => ?_, rfl, rfl⟩
  cases v with
  | arr l =>
    cases l with
    | nil => exact absurd rfl hv
    | cons x xs => rfl
  | _ => rfl

/-- C6 witness: the amended agreement at the string value zero, which is
truthy on both sides. -/
theorem truthiness_agreement_amended_witness :
    isTruthy (.str "0") = jsTruthy (.str "0") :=
  truthiness_agreement_amended.1 (.str "0") (by simp)

/-- C7: classifyError implements exactly the ordered, case-insensitive,
first-match-wins substring table of the spec (timeout before
network/connection before rate limit before server error/500 before auth
before validation before unavailable/busy, default temporary_failure,
also for null and falsy non-Error input); in particular the message
Connection timeout classifies as timeout, not network_error. -/
theorem classifyError_priority :
    (∀ e : ErrVal, classifyError e = specClassify e) ∧
      classifyError (.err (.error "Connection timeout")) = .timeout := by
  constructor
  · intro e
    cases e with
    | nullv => rfl
    | str s =>
      simp only [classifyError, specClassify, classifyMsg, firstMatch, patternTable,
        List.any_cons, List.any_nil, Bool.or_false]
    | err e =>
      simp only [classifyError, specClassify, classifyMsg, firstMatch, patternTable,
        List.any_cons, List.any_nil, Bool.or_false]
  · rfl

/-- C8: evaluateCondition, for every condition string and variables map,
either returns a boolean (computed by the safe grammar evaluator
translated above) or fails with precisely the ValidationError naming the
condition; it never evaluates the condition as program code, and a
condition of non-grammar shape such as process.exit(1) always fails with
that ValidationError, for every variables map. -/
theorem evaluateCondition_safe :
    (∀ (c : String) (vars : JRecord),
      (∃ b, evaluateCondition c vars = .ok b) ∨
        evaluateCondition c vars = .error (.validationError ("Invalid condition: " ++ c))) ∧
      (∀ vars : JRecord,
        evaluateCondition "process.exit(1)" vars =
          .error (.validationError "Invalid condition: process.exit(1)")) := by
  constructor
  · intro c vars
    unfold evaluateCondition
    cases safeExpressionEvaluator c vars with
    | ok b => exact Or.inl ⟨b, rfl⟩
    | error e => exact Or.inr rfl
  · intro vars
    rfl

/-- Dispatch on a prim step is its body. -/
theorem executeStepByType_prim (sid : String) (rp : Option RetryPolicy)
    (body : JRecord → Nat → Except JsErr StepResult) (vars : JRecord) (rc : Nat) :
    executeStepByType (.prim sid rp body) vars rc = body vars rc := by
  simp [executeStepByType]

/-- With a policy that has attempts left and no retryOn list, shouldRetry
holds. -/
theorem shouldRetry_noRetryOn (m : Nat) (b : Option Nat) (e : JsErr) (rc : Nat) :
    shouldRetry (some ⟨m, b, none⟩) e rc = decide (rc < m) := by
  by_cases h : rc < m
  · simp [shouldRetry, Nat.not_le_of_lt h, h]
  · simp [shouldRetry, Nat.le_of_not_lt h, h]

/-- The retry recursion on an always-failing prim step, counted from an
arbitrary retryCount: the body runs once per remaining attempt plus one,
the sleeps are the delays at the intermediate retry counts, and the final
error is the last attempt's. -/
theorem executeStep_fail_from (sid : String) (m : Nat) (b : Option Nat)
    (body : JRecord → Nat → Except JsErr StepResult) (e : Nat → JsErr) (vars : JRecord)
    (hb : ∀ v k, body v k = .error (e k)) :
    ∀ (j rc : Nat), rc + j = m →
      executeStep (.prim sid (some ⟨m, b, none⟩) body) vars rc =
        (j + 1, (List.range' rc j).map (calculateRetryDelay (some ⟨m, b, none⟩)),
         .error (e m)) := by
  intro j
  induction j with
  | zero =>
    intro rc hrc
    have hrc0 : rc = m := by omega
    subst hrc0
    have hsr : shouldRetry (some ⟨rc, b, none⟩) (e rc) rc = false := by
      rw [shouldRetry_noRetryOn]; simp
    simp [executeStep, executeStepByType_prim, hb, StepT.retryPolicy, hsr, List.range']
  | succ j ih =>
    intro rc hrc
    have hsr : shouldRetry (some ⟨m, b, none⟩) (e rc) rc = true := by
      rw [shouldRetry_noRetryOn]; simp; omega
    rw [executeStep]
    simp only [executeStepByType_prim, hb, StepT.retryPolicy, hsr, dite_true]
    rw [ih (rc + 1) (by omega)]
    simp [List.range']

/-- C1: for a step with retryPolicy maxAttempts m and backoffMs b and no
retryOn whose execution fails on every attempt, executeStep runs the step
body exactly m + 1 times, sleeps exactly m times (at the delays for retry
counts 0 to m - 1), and rethrows the last attempt's error; and a retry
happens exactly when retryCount is below maxAttempts. -/
theorem executeStep_retry_exhaustion :
    ∀ (sid : String) (m : Nat) (b : Option Nat)
      (body : JRecord → Nat → Except JsErr StepResult) (e : Nat → JsErr) (vars : JRecord),
      (∀ v k, body v k = .error (e k)) →
      executeStep (.prim sid (some ⟨m, b, none⟩) body) vars 0 =
        (m + 1, (List.range m).map (calculateRetryDelay (some ⟨m, b, none⟩)),
         .error (e m)) ∧
      ((List.range m).map (calculateRetryDelay (some ⟨m, b, none⟩))).length = m ∧
      (∀ rc : Nat, shouldRetry (some ⟨m, b, none⟩) (e rc) rc = decide (rc < m)) := by
  intro sid m b body e vars hb
  refine ⟨?_, by simp, fun rc => shouldRetry_noRetryOn m b (e rc) rc⟩
  have h := executeStep_fail_from sid m b body e vars hb m 0 (by omega)
  rwa [List.range_eq_range']

/-- C1 witness: maxAttempts 2, backoffMs 100, a body failing every
attempt with the same error: three executions, two sleeps, the error
rethrown. -/
theorem executeStep_retry_exhaustion_witness :
    executeStep (.prim "s" (some ⟨2, some 100, none⟩)
        (fun _ _ => .error (.error "boom"))) [] 0 =
      (2 + 1, (List.range 2).map (calculateRetryDelay (some ⟨2, some 100, none⟩)),
       .error (.error "boom")) :=
  (executeStep_retry_exhaustion "s" 2 (some 100)
    (fun _ _ => .error (.error "boom")) (fun _ => .error "boom") []
    (fun _ _ => rfl)).1

/-- Every single state-manager mutation preserves the step-index
invariant. -/
theorem stepIndexInv_applyOp (s : WorkflowSessionState) (op : SessionOp)
    (h : stepIndexInv s) : stepIndexInv (applySessionOp s op) := by
  cases op <;>
    simp_all [stepIndexInv, applySessionOp, addStepExecutionState, updateContextState,
      updateSessionStatusState, stampState]

/-- Sequences of mutations preserve the step-index invariant. -/
theorem stepIndexInv_applyOps (s : WorkflowSessionState) (ops : List SessionOp)
    (h : stepIndexInv s) : stepIndexInv (applySessionOps s ops) := by
  induction ops generalizing s with
  | nil => exact h
  | cons op ops ih => exact ih _ (stepIndexInv_applyOp s op h)

/-- C2: createSession starts with currentStepIndex 0 and no step
executions; addStepExecution appends exactly one record and increments
currentStepIndex by one; updateContext and updateSessionStatus leave both
fields unchanged; hence every session reachable from createSession by
state-manager mutations satisfies currentStepIndex equal to the length of
stepExecutions. -/
theorem stateManager_stepIndex_invariant :
    (∀ (sid wid : String) (inputs : JRecord) (now : Nat),
      (createSessionState sid wid inputs now).currentStepIndex = 0 ∧
      (createSessionState sid wid inputs now).stepExecutions = []) ∧
    (∀ (s : WorkflowSessionState) (e : StepExecution) (now : Nat),
      (addStepExecutionState s e now).stepExecutions = s.stepExecutions ++ [e] ∧
      (addStepExecutionState s e now).currentStepIndex = s.currentStepIndex + 1) ∧
    (∀ (s : WorkflowSessionState) (patch : JRecord) (now : Nat),
      (updateContextState s patch now).currentStepIndex = s.currentStepIndex ∧
      (updateContextState s patch now).stepExecutions = s.stepExecutions) ∧
    (∀ (s : WorkflowSessionState) (st : WorkflowStatus) (now : Nat),
      (updateSessionStatusState s st now).currentStepIndex = s.currentStepIndex ∧
      (updateSessionStatusState s st now).stepExecutions = s.stepExecutions) ∧
    (∀ (sid wid : String) (inputs : JRecord) (now : Nat) (ops : List SessionOp),
      stepIndexInv (applySessionOps (createSessionState sid wid inputs now) ops)) := by
  refine ⟨fun sid wid inputs now => ⟨rfl, rfl⟩,
    fun s e now => ⟨rfl, rfl⟩,
    fun s patch now => ⟨rfl, rfl⟩,
    fun s st now => ⟨rfl, rfl⟩,
    fun sid wid inputs now ops => ?_⟩
  exact stepIndexInv_applyOps _ ops (by simp [stepIndexInv, createSessionState])

/-- Looking up the key just set finds the new value. -/
theorem fsLookup_set_self (l : List (String × WorkflowSessionState)) (k : String)
    (v : WorkflowSessionState) : fsLookup (fsSet l k v) k = some v := by
  induction l with
  | nil => simp [fsSet, fsLookup]
  | cons kv rest ih =>
    by_cases h : kv.1 = k
    · simp [fsSet, fsLookup, h]
    · simp [fsSet, fsLookup, h, ih]

/-- Looking up an erased key finds nothing. -/
theorem fsLookup_erase_self (l : List (String × WorkflowSessionState)) (k : String) :
    fsLookup (fsErase l k) k = none := by
  induction l with
  | nil => simp [fsErase, fsLookup]
  | cons kv rest ih =>
    by_cases h : kv.1 = k
    · simpa [fsErase, h] using ih
    · simpa [fsErase, fsLookup, h] using ih

/-- C4: when the temp-file write or the rename fails during saveSession,
the operation returns a StateError carrying the session id and the write
operation tag, every partition's real (non-tmp) files are exactly as
before the call (no new valid session file appears and any pre-existing
one is untouched), and when the best-effort temp-file unlink succeeds no
temp file for the session remains in the target partition. -/
theorem saveSession_failure_atomic :
    ∀ (fs : FS) (state : WorkflowSessionState) (now : Nat) (cause : String)
      (cleanupOk : Bool) (outcome : SaveOutcome),
      (outcome = .writeFail cause cleanupOk ∨ outcome = .renameFail cause cleanupOk) →
      (saveSessionFS fs state now outcome).2 =
        some ⟨"Failed to save session " ++ state.sessionId ++ ": " ++ cause,
              some state.sessionId, opWrite⟩ ∧
      (∀ st : WorkflowStatus,
        (((saveSessionFS fs state now outcome).1) st).real = (fs st).real) ∧
      (cleanupOk = true →
        fsLookup (((saveSessionFS fs state now outcome).1) state.status).tmp
          state.sessionId = none) := by
  intro fs state now cause cleanupOk outcome houtcome
  have hreal : ∀ st : WorkflowStatus,
      (((saveSessionFS fs state now outcome).1) st).real = (fs st).real := by
    intro st
    rcases houtcome with h | h <;> subst h <;>
      · by_cases hst : st = state.status <;> simp [saveSessionFS, fsUpdate, hst]
  refine ⟨?_, hreal, ?_⟩
  · rcases houtcome with h | h <;> subst h <;> simp [saveSessionFS]
  · intro hclean
    rcases houtcome with h | h <;> subst h <;>
      simp [saveSessionFS, fsUpdate, hclean, fsLookup_erase_self]

/-- C4 witness: a concrete failing write on an empty filesystem: the
write-tagged error is raised, the running partition's real files stay
empty, and the temp file is gone after a successful cleanup. -/
theorem saveSession_failure_atomic_witness :
    (saveSessionFS (fun _ => ⟨[], []⟩) (createSessionState "s1" "w1" [] 0) 5
        (.writeFail "disk full" true)).2 =
      some ⟨"Failed to save session s1: disk full", some "s1", opWrite⟩ ∧
    ((saveSessionFS (fun _ => ⟨[], []⟩) (createSessionState "s1" "w1" [] 0) 5
        (.writeFail "disk full" true)).1 .running).real = [] ∧
    fsLookup ((saveSessionFS (fun _ => ⟨[], []⟩) (createSessionState "s1" "w1" [] 0) 5
        (.writeFail "disk full" true)).1 .running).tmp "s1" = none := by
  have h := saveSession_failure_atomic (fun _ => ⟨[], []⟩)
    (createSessionState "s1" "w1" [] 0) 5 "disk full" true
    (.writeFail "disk full" true) (Or.inl rfl)
  exact ⟨h.1, h.2.1 .running, h.2.2 rfl⟩

/-- When a session exists in exactly one partition, the scan of
findSessionFile stops at that partition. -/
theorem findSession_unique (fs : FS) (sid : String) (st : WorkflowStatus)
    (c : WorkflowSessionState) (hc : fsLookup (fs st).real sid = some c)
    (honly : ∀ s, s ≠ st → fsLookup (fs s).real sid = none) :
    findSessionFS fs sid = some st := by
  cases st with
  | running => simp [findSessionFS, statusScanOrder, List.find?, hc]
  | paused =>
    have h1 := honly .running (by simp)
    simp [findSessionFS, statusScanOrder, List.find?, hc, h1]
  | completed =>
    have h1 := honly .running (by simp)
    have h2 := honly .paused (by simp)
    simp [findSessionFS, statusScanOrder, List.find?, hc, h1, h2]
  | failed =>
    have h1 := honly .running (by simp)
    have h2 := honly .paused (by simp)
    have h3 := honly .completed (by simp)
    simp [findSessionFS, statusScanOrder, List.find?, hc, h1, h2, h3]

/-- loadSession without a status hint on a uniquely stored session
returns its record. -/
theorem loadSession_unique (fs : FS) (sid : String) (st : WorkflowStatus)
    (c : WorkflowSessionState) (hc : fsLookup (fs st).real sid = some c)
    (honly : ∀ s, s ≠ st → fsLookup (fs s).real sid = none) :
    loadSessionFS fs sid none = .ok c := by
  simp [loadSessionFS, findSession_unique fs sid st c hc honly, hc]

/-- C3: for a session stored in exactly one partition whose stored status
matches its partition, updateSessionStatus to a different status succeeds
and leaves the session file only in the new partition (the old
partition's file is removed and no other partition holds it), and a
hint-free loadSession then returns a record with the new status; for a
same-status update nothing is deleted: the file stays in its partition
and every other partition's real files are untouched. -/
theorem updateSessionStatus_move_exclusive :
    (∀ (fs : FS) (sid : String) (c : WorkflowSessionState) (st newSt : WorkflowStatus)
       (now : Nat),
      fsLookup (fs st).real sid = some c →
      c.sessionId = sid →
      c.status = st →
      (∀ s, s ≠ st → fsLookup (fs s).real sid = none) →
      st ≠ newSt →
      ∃ (fs2 : FS) (c2 : WorkflowSessionState),
        updateSessionStatusFS fs sid newSt now .ok true = .ok fs2 ∧
        fsLookup (fs2 newSt).real sid = some c2 ∧
        c2.status = newSt ∧
        (∀ s, s ≠ newSt → fsLookup (fs2 s).real sid = none) ∧
        loadSessionFS fs2 sid none = .ok c2) ∧
    (∀ (fs : FS) (sid : String) (c : WorkflowSessionState) (st : WorkflowStatus)
       (now : Nat),
      fsLookup (fs st).real sid = some c →
      c.sessionId = sid →
      c.status = st →
      (∀ s, s ≠ st → fsLookup (fs s).real sid = none) →
      ∃ (fs2 : FS) (c2 : WorkflowSessionState),
        updateSessionStatusFS fs sid st now .ok true = .ok fs2 ∧
        fsLookup (fs2 st).real sid = some c2 ∧
        (∀ s, s ≠ st → (fs2 s).real = (fs s).real)) := by
  constructor
  · intro fs sid c st newSt now hc hsid hst honly hne
    have hload := loadSession_unique fs sid st c hc honly
    set c2 := stampState (updateSessionStatusState c newSt now) now with hc2
    set p1 : Partition :=
      ⟨fsSet (fs newSt).real sid c2, fsErase (fs newSt).tmp sid⟩ with hp1
    set fs1 : FS := fsUpdate fs newSt p1 with hfs1
    set fs2 : FS := fsUpdate fs1 st ⟨fsErase (fs1 st).real sid, (fs1 st).tmp⟩ with hfs2
    have hrun : updateSessionStatusFS fs sid newSt now .ok true = .ok fs2 := by
      rw [updateSessionStatusFS]
      rw [hload]
      show (let updated := updateSessionStatusState c newSt now
            let r := saveSessionFS fs updated now .ok
            match r.2 with
            | some e => Except.error e
            | none =>
              if updated0 : c.status ≠ newSt then
                if _ : (true : Bool) then
                  .ok (fsUpdate r.1 c.status
                    ⟨fsErase (r.1 c.status).real sid, (r.1 c.status).tmp⟩)
                else .ok r.1
              else .ok r.1) = Except.ok fs2
      simp only [saveSessionFS, updateSessionStatusState, stampState, hsid, hst, hne,
        ne_eq, not_false_iff, if_true, dite_true]
      simp [hst, hne, hfs2, hfs1, hp1, hc2, fsUpdate, stampState, updateSessionStatusState, hsid]
    have hlook2 : fsLookup (fs2 newSt).real sid = some c2 := by
      have h1 : fs2 newSt = fs1 newSt := by
        simp [hfs2, fsUpdate, (Ne.symm hne)]
      have h2 : fs1 newSt = p1 := by simp [hfs1, fsUpdate]
      rw [h1, h2, hp1]
      exact fsLookup_set_self _ _ _
    have hstat2 : c2.status = newSt := rfl
    have honly2 : ∀ s, s ≠ newSt → fsLookup (fs2 s).real sid = none := by
      intro s hs
      by_cases hss : s = st
      · subst hss
        have : fs2 s = ⟨fsErase (fs1 s).real sid, (fs1 s).tmp⟩ := by
          simp [hfs2, fsUpdate]
        rw [this]
        exact fsLookup_erase_self _ _
      · have : fs2 s = fs s := by
          simp [hfs2, hfs1, fsUpdate, hss, hs]
        rw [this]
        exact honly s hss
    exact ⟨fs2, c2, hrun, hlook2, hstat2, honly2,
      loadSession_unique fs2 sid newSt c2 hlook2 honly2⟩
  · intro fs sid c st now hc hsid hst honly
    have hload := loadSession_unique fs sid st c hc honly
    set c2 := stampState (updateSessionStatusState c st now) now with hc2
    set p1 : Partition :=
      ⟨fsSet (fs st).real sid c2, fsErase (fs st).tmp sid⟩ with hp1
    set fs1 : FS := fsUpdate fs st p1 with hfs1
    have hrun : updateSessionStatusFS fs sid st now .ok true = .ok fs1 := by
      rw [updateSessionStatusFS]
      rw [hload]
      simp only [Bind.bind, Except.bind, saveSessionFS, updateSessionStatusState,
        stampState, hsid, hst, ne_eq]
      simp [hfs1, hp1, hc2, fsUpdate, stampState, updateSessionStatusState, hsid, hst]
    have hlook2 : fsLookup (fs1 st).real sid = some c2 := by
      have h2 : fs1 st = p1 := by simp [hfs1, fsUpdate]
      rw [h2, hp1]
      exact fsLookup_set_self _ _ _
    refine ⟨fs1, c2, hrun, hlook2, ?_⟩
    intro s hs
    simp [hfs1, fsUpdate, hs]

/-- C3 witness: a concrete store with one running session named s1;
moving it to completed succeeds. -/
theorem updateSessionStatus_move_exclusive_witness :
    fsLookup (((fun s => match s with
        | WorkflowStatus.running => (⟨[("s1", createSessionState "s1" "w1" [] 0)], []⟩ : Partition)
        | _ => ⟨[], []⟩) : FS) .running).real "s1" =
      some (createSessionState "s1" "w1" [] 0) ∧
    (updateSessionStatusFS ((fun s => match s with
        | WorkflowStatus.running => (⟨[("s1", createSessionState "s1" "w1" [] 0)], []⟩ : Partition)
        | _ => ⟨[], []⟩) : FS) "s1" .completed 5 .ok true).isOk = true := by
  refine ⟨rfl, ?_⟩
  have honly : ∀ s, s ≠ WorkflowStatus.running →
      fsLookup (((fun s => match s with
        | WorkflowStatus.running => (⟨[("s1", createSessionState "s1" "w1" [] 0)], []⟩ : Partition)
        | _ => ⟨[], []⟩) : FS) s).real "s1" = none := by
    intro s hs
    cases s with
    | running => exact absurd rfl hs
    | paused => rfl
    | completed => rfl
    | failed => rfl
  obtain ⟨fs2, c2, hrun, -, -, -, -⟩ :=
    updateSessionStatus_move_exclusive.1 ((fun s => match s with
        | WorkflowStatus.running => (⟨[("s1", createSessionState "s1" "w1" [] 0)], []⟩ : Partition)
        | _ => ⟨[], []⟩) : FS) "s1" (createSessionState "s1" "w1" [] 0)
      .running .completed 5 rfl rfl rfl honly (by simp)
  rw [hrun]
  rfl

/-- A loop step whose first child always fails propagates that error out
of the type dispatch unchanged, whatever retry policy the child carries. -/
theorem loop_child_error (lid cid : String) (rpLoop rpChild : Option RetryPolicy)
    (items : String) (body : JRecord → Nat → Except JsErr StepResult) (e : JsErr)
    (vars : JRecord) (rc : Nat) (x : JSValue) (xs : List JSValue)
    (hb : ∀ v k, body v k = .error e) (hi : items ≠ "")
    (hr : resolveValue items vars = .arr (x :: xs)) :
    executeStepByType (.loopN lid rpLoop items [.prim cid rpChild body]) vars rc =
      .error e := by
  rw [executeStepByType]
  simp [hi, hr, runLoopIters, runChildren, executeStepByType, hb, Bind.bind, Except.bind]

/-- A conditional step with a true condition whose first child always
fails propagates that error out of the type dispatch unchanged, whatever
retry policy the child carries. -/
theorem cond_child_error (did cid : String) (rpCond rpChild : Option RetryPolicy)
    (condition : String) (body : JRecord → Nat → Except JsErr StepResult) (e : JsErr)
    (vars : JRecord) (rc : Nat) (r : String)
    (hb : ∀ v k, body v k = .error e) (hcnd : condition ≠ "")
    (hrender : render condition vars = .ok r)
    (heval : evaluateCondition r vars = .ok true) :
    executeStepByType (.condN did rpCond condition [.prim cid rpChild body]) vars rc =
      .error e := by
  rw [executeStepByType]
  simp [hcnd, hrender, heval, runChildren, executeStepByType, hb, Bind.bind, Except.bind]

/-- C9: children nested in a loop or conditional run through the type
dispatch, bypassing the retry wrapper: a failing child propagates its
error immediately, for every retry policy the child carries (so the
child's policy is never consulted), and executing the enclosing
policy-free loop via the retry wrapper performs one dispatch and no
backoff sleep before rethrowing. -/
theorem nested_children_bypass_retry :
    (∀ (lid cid : String) (rpLoop rpChild : Option RetryPolicy) (items : String)
       (body : JRecord → Nat → Except JsErr StepResult) (e : JsErr) (vars : JRecord)
       (rc : Nat) (x : JSValue) (xs : List JSValue),
      (∀ v k, body v k = .error e) →
      items ≠ "" →
      resolveValue items vars = .arr (x :: xs) →
      executeStepByType (.loopN lid rpLoop items [.prim cid rpChild body]) vars rc =
        .error e) ∧
    (∀ (did cid : String) (rpCond rpChild : Option RetryPolicy) (condition : String)
       (body : JRecord → Nat → Except JsErr StepResult) (e : JsErr) (vars : JRecord)
       (rc : Nat) (r : String),
      (∀ v k, body v k = .error e) →
      condition ≠ "" →
      render condition vars = .ok r →
      evaluateCondition r vars = .ok true →
      executeStepByType (.condN did rpCond condition [.prim cid rpChild body]) vars rc =
        .error e) ∧
    (∀ (lid cid : String) (rpChild : Option RetryPolicy) (items : String)
       (body : JRecord → Nat → Except JsErr StepResult) (e : JsErr) (vars : JRecord)
       (x : JSValue) (xs : List JSValue),
      (∀ v k, body v k = .error e) →
      items ≠ "" →
      resolveValue items vars = .arr (x :: xs) →
      executeStep (.loopN lid none items [.prim cid rpChild body]) vars 0 =
        (1, [], .error e)) := by
  refine ⟨loop_child_error, cond_child_error, ?_⟩
  intro lid cid rpChild items body e vars x xs hb hi hr
  rw [executeStep]
  rw [loop_child_error lid cid none rpChild items body e vars 0 x xs hb hi hr]
  simp [shouldRetry, StepT.retryPolicy]

/-- C9 witness: a loop over a one-element array whose child fails with a
validation error and carries its own (ignored) retry policy: the dispatch
propagates the error, and the policy-free enclosing loop sleeps zero
times. -/
theorem nested_children_bypass_retry_witness :
    executeStepByType
        (.loopN "l" none "xs"
          [.prim "c" (some ⟨5, some 100, none⟩)
            (fun _ _ => .error (.validationError "Validation failed: false"))])
        [("xs", .arr [.num 1])] 0 =
      .error (.validationError "Validation failed: false") ∧
    executeStep
        (.loopN "l" none "xs"
          [.prim "c" (some ⟨5, some 100, none⟩)
            (fun _ _ => .error (.validationError "Validation failed: false"))])
        [("xs", .arr [.num 1])] 0 =
      (1, [], .error (.validationError "Validation failed: false")) := by
  constructor
  · exact nested_children_bypass_retry.1 "l" "c" none (some ⟨5, some 100, none⟩) "xs"
      _ _ [("xs", .arr [.num 1])] 0 (.num 1) [] (fun _ _ => rfl) (by decide) rfl
  · exact nested_children_bypass_retry.2.2 "l" "c" (some ⟨5, some 100, none⟩) "xs"
      _ _ [("xs", .arr [.num 1])] (.num 1) [] (fun _ _ => rfl) (by decide) rfl

/-- C10: a template conditional resolves its condition only as a dotted
path against the context: whenever that resolution yields undefined (as
it does for any non-path shape such as a comparison), the conditional
renders the empty string without evaluating its body; concretely, the
template if x equals-equals 1 renders to the empty string with no parse
or render error even when x is 1. -/
theorem template_conditional_path_only :
    (∀ (cond : String) (tb : List ASTNode) (context : JRecord),
      resolvePath cond context = .undefined →
      evaluateNode (.condNode cond tb none) context = .ok "") ∧
    render "$\x7bif x == 1\x7dyes$\x7bendif\x7d" [("x", .num 1)] = .ok "" := by
  constructor
  · intro cond tb context h
    rw [evaluateNode]
    simp [h, isTruthy]
  · have hp : parse "$\x7bif x == 1\x7dyes$\x7bendif\x7d" =
        .ok [.condNode "x == 1" [.text "yes"] none] := rfl
    have hres : resolvePath "x == 1" [("x", .num 1)] = .undefined := rfl
    simp [render, hp, evaluateNodes, evaluateNode, hres, isTruthy, Bind.bind, Except.bind]

/-- C10 witness: the general clause applied at the condition x
equals-equals 1 over the context where x is 1, next to the concrete
rendering. -/
theorem template_conditional_path_only_witness :
    evaluateNode (.condNode "x == 1" [.text "yes"] none) [("x", .num 1)] = .ok "" ∧
    render "$\x7bif x == 1\x7dyes$\x7bendif\x7d" [("x", .num 1)] = .ok "" :=
  ⟨template_conditional_path_only.1 "x == 1" [.text "yes"] [("x", .num 1)] rfl,
   template_conditional_path_only.2⟩

end Aiflow
